import Mathlib

/-!
# Verification of the action-schema normalizer and forwarding proxy

This development embeds the response-normalization core of the repository
(`src/backend/llm_backend/openrouter_client.py` and the FastAPI proxy in
`src/backend/llm_backend/server.py`) as executable Lean definitions and
proves/refutes the specified properties about them.

JSON values produced by Python `json.loads` are modelled by `JValue`;
JSON numbers are modelled as integers (the repository and all specified
scenarios only exchange integer numerals).  Python dictionaries coming
from `json.loads` are modelled as association lists in which a later
binding for a key shadows an earlier one (Python keeps the last duplicate
key).  Python exceptions that can escape the translated code are modelled
by the `PyError` type together with `Except`.
-/

/-- A JSON value as produced by Python `json.loads` (numbers restricted to
integers, which is all the repository ever produces or consumes). -/
inductive JValue where
  | null : JValue
  | bool : Bool → JValue
  | int : Int → JValue
  | str : String → JValue
  | arr : List JValue → JValue
  | obj : List (String × JValue) → JValue
  deriving Repr

mutual

def JValue.decEq : (a b : JValue) → Decidable (a = b)
  | .null, .null => isTrue rfl
  | .bool a, .bool b =>
    if h : a = b then isTrue (by rw [h]) else isFalse (fun hh => h (by cases hh; rfl))
  | .int a, .int b =>
    if h : a = b then isTrue (by rw [h]) else isFalse (fun hh => h (by cases hh; rfl))
  | .str a, .str b =>
    if h : a = b then isTrue (by rw [h]) else isFalse (fun hh => h (by cases hh; rfl))
  | .arr xs, .arr ys =>
    match JValue.decEqList xs ys with
    | isTrue h => isTrue (by rw [h])
    | isFalse h => isFalse (fun hh => h (by cases hh; rfl))
  | .obj fs, .obj gs =>
    match JValue.decEqFields fs gs with
    | isTrue h => isTrue (by rw [h])
    | isFalse h => isFalse (fun hh => h (by cases hh; rfl))
  | .null, .bool _ => isFalse (fun h => nomatch h)
  | .null, .int _ => isFalse (fun h => nomatch h)
  | .null, .str _ => isFalse (fun h => nomatch h)
  | .null, .arr _ => isFalse (fun h => nomatch h)
  | .null, .obj _ => isFalse (fun h => nomatch h)
  | .bool _, .null => isFalse (fun h => nomatch h)
  | .bool _, .int _ => isFalse (fun h => nomatch h)
  | .bool _, .str _ => isFalse (fun h => nomatch h)
  | .bool _, .arr _ => isFalse (fun h => nomatch h)
  | .bool _, .obj _ => isFalse (fun h => nomatch h)
  | .int _, .null => isFalse (fun h => nomatch h)
  | .int _, .bool _ => isFalse (fun h => nomatch h)
  | .int _, .str _ => isFalse (fun h => nomatch h)
  | .int _, .arr _ => isFalse (fun h => nomatch h)
  | .int _, .obj _ => isFalse (fun h => nomatch h)
  | .str _, .null => isFalse (fun h => nomatch h)
  | .str _, .bool _ => isFalse (fun h => nomatch h)
  | .str _, .int _ => isFalse (fun h => nomatch h)
  | .str _, .arr _ => isFalse (fun h => nomatch h)
  | .str _, .obj _ => isFalse (fun h => nomatch h)
  | .arr _, .null => isFalse (fun h => nomatch h)
  | .arr _, .bool _ => isFalse (fun h => nomatch h)
  | .arr _, .int _ => isFalse (fun h => nomatch h)
  | .arr _, .str _ => isFalse (fun h => nomatch h)
  | .arr _, .obj _ => isFalse (fun h => nomatch h)
  | .obj _, .null => isFalse (fun h => nomatch h)
  | .obj _, .bool _ => isFalse (fun h => nomatch h)
  | .obj _, .int _ => isFalse (fun h => nomatch h)
  | .obj _, .str _ => isFalse (fun h => nomatch h)
  | .obj _, .arr _ => isFalse (fun h => nomatch h)

def JValue.decEqList : (a b : List JValue) → Decidable (a = b)
  | [], [] => isTrue rfl
  | [], _ :: _ => isFalse (fun h => nomatch h)
  | _ :: _, [] => isFalse (fun h => nomatch h)
  | x :: xs, y :: ys =>
    match JValue.decEq x y with
    | isFalse h => isFalse (fun hh => h (by cases hh; rfl))
    | isTrue h1 =>
      match JValue.decEqList xs ys with
      | isTrue h2 => isTrue (by rw [h1, h2])
      | isFalse h2 => isFalse (fun hh => h2 (by cases hh; rfl))

def JValue.decEqFields : (a b : List (String × JValue)) → Decidable (a = b)
  | [], [] => isTrue rfl
  | [], _ :: _ => isFalse (fun h => nomatch h)
  | _ :: _, [] => isFalse (fun h => nomatch h)
  | (k, v) :: fs, (k', v') :: gs =>
    if hk : k = k' then
      match JValue.decEq v v' with
      | isFalse h => isFalse (fun hh => h (by cases hh; rfl))
      | isTrue hv =>
        match JValue.decEqFields fs gs with
        | isTrue hr => isTrue (by rw [hk, hv, hr])
        | isFalse hr => isFalse (fun hh => hr (by cases hh; rfl))
    else isFalse (fun hh => hk (by cases hh; rfl))

end

instance : DecidableEq JValue := JValue.decEq

/-- The Python exceptions that the translated code can raise. -/
inductive PyError where
  | attributeError : PyError
  | indexError : PyError
  | typeError : PyError
  | valueError : PyError
  deriving DecidableEq, Repr

instance {ε α : Type} [DecidableEq ε] [DecidableEq α] : DecidableEq (Except ε α)
  | .ok a, .ok b =>
    if h : a = b then isTrue (by rw [h]) else isFalse (fun hh => h (by cases hh; rfl))
  | .error a, .error b =>
    if h : a = b then isTrue (by rw [h]) else isFalse (fun hh => h (by cases hh; rfl))
  | .ok _, .error _ => isFalse (fun h => nomatch h)
  | .error _, .ok _ => isFalse (fun h => nomatch h)

/-- Python `str.strip()` with no argument: remove leading and trailing
whitespace, defined over the character list so that it computes by kernel
reduction. -/
def pyStrip (s : String) : String :=
  let ws : Char → Bool := fun c =>
    c = ' ' ∨ c = '\t' ∨ c = '\n' ∨ c = '\r' ∨ c = '\x0b' ∨ c = '\x0c'
  String.mk (((s.data.dropWhile ws).reverse.dropWhile ws).reverse)

/-- `str.lower()` (ASCII case folding, which covers every method name the
repository handles), defined over the character list so that it computes
by kernel reduction. -/
def pyLower (s : String) : String :=
  String.mk (s.data.map Char.toLower)

/-- Python truthiness (`bool(x)`) of a JSON-derived value. -/
def pyTruthy : JValue → Bool
  | .null => false
  | .bool b => b
  | .int n => n != 0
  | .str s => s != ""
  | .arr xs => !xs.isEmpty
  | .obj fs => !fs.isEmpty

/-- `d.get(k)` on a Python dict built by `json.loads`: the *last* binding of
a duplicated key wins, absence gives `none`. -/
def pyGet (fs : List (String × JValue)) (k : String) : Option JValue :=
  match fs with
  | [] => none
  | (k', v) :: rest =>
    match pyGet rest k with
    | some w => some w
    | none => if k' = k then some v else none

/-- `d.get(k, default)` on a Python dict (an explicit `null` value is
returned as such; only absence yields the default). -/
def pyGetD (fs : List (String × JValue)) (k : String) (d : JValue) : JValue :=
  (pyGet fs k).getD d

/-- Python `a or b` for JSON-derived values. -/
def pyOr (a b : JValue) : JValue :=
  if pyTruthy a then a else b

/-- Parse the decimal-integer forms accepted by Python `int(str)`:
optional surrounding whitespace, an optional sign, then digits.
(Underscore digit separators are not modelled; none appear in the data the
repository handles.) -/
def pyIntOfString (s : String) : Option Int :=
  let t := pyStrip s
  let core : Option (List Char) :=
    match t.toList with
    | '-' :: ds => if ds ≠ [] ∧ ds.all Char.isDigit then some ds else none
    | '+' :: ds => if ds ≠ [] ∧ ds.all Char.isDigit then some ds else none
    | ds => if ds ≠ [] ∧ ds.all Char.isDigit then some ds else none
  match core with
  | none => none
  | some ds =>
    let n : Nat := ds.foldl (fun acc c => acc * 10 + (c.toNat - '0'.toNat)) 0
    if t.toList.head? = some '-' then some (-(n : Int)) else some (n : Int)

/-- Python `int(x)` on a JSON-derived value: integers pass through,
booleans become 0/1, numeric strings are parsed (`ValueError` otherwise),
and `None`/lists/dicts raise `TypeError`. -/
def pyInt : JValue → Except PyError Int
  | .int n => .ok n
  | .bool b => .ok (if b then 1 else 0)
  | .str s =>
    match pyIntOfString s with
    | some n => .ok n
    | none => .error .valueError
  | .null => .error .typeError
  | .arr _ => .error .typeError
  | .obj _ => .error .typeError

/-- `try: int(x) except (ValueError, TypeError): d` — the guarded integer
coercion the normalizer uses for `element` and `duration`. -/
def pyIntD (v : JValue) (d : Int) : Int :=
  match pyInt v with
  | .ok n => n
  | .error _ => d

/-! ## A model of `json.loads` / `json.dumps`

`json.loads` is modelled by a fuel-indexed recursive-descent parser over
the character list, recognising exactly the strict JSON grammar the
repository exchanges: objects, arrays, strings (with the standard escapes
and `\uXXXX`, including surrogate pairs), integer numerals, `true`,
`false` and `null`.  Fractional and exponent numerals are not modelled
(the repository never produces them), so they are parse failures here. -/

/-- JSON whitespace skipping (space, tab, newline, carriage return). -/
def skipWs : List Char → List Char
  | c :: rest =>
    if c = ' ' ∨ c = '\t' ∨ c = '\n' ∨ c = '\r' then skipWs rest else c :: rest
  | [] => []

/-- Value of one hexadecimal digit. -/
def hexVal : Char → Option Nat
  | c =>
    if '0' ≤ c ∧ c ≤ '9' then some (c.toNat - '0'.toNat)
    else if 'a' ≤ c ∧ c ≤ 'f' then some (c.toNat - 'a'.toNat + 10)
    else if 'A' ≤ c ∧ c ≤ 'F' then some (c.toNat - 'A'.toNat + 10)
    else none

/-- Four hexadecimal digits of a `\uXXXX` escape. -/
def hex4 : List Char → Option (Nat × List Char)
  | a :: b :: c :: d :: rest =>
    match hexVal a, hexVal b, hexVal c, hexVal d with
    | some x, some y, some z, some w => some (((x * 16 + y) * 16 + z) * 16 + w, rest)
    | _, _, _, _ => none
  | _ => none

/-- Body of a JSON string after the opening quote: collect characters up
to the closing quote, decoding escapes (surrogate pairs are combined; a
lone surrogate, which Lean characters cannot represent, decodes to the
null character). Unescaped control characters are rejected, as in strict
`json.loads`. -/
def parseStringBody : Nat → List Char → Option (List Char × List Char)
  | 0, _ => none
  | _ + 1, [] => none
  | _ + 1, '"' :: rest => some ([], rest)
  | fuel + 1, '\\' :: e :: rest =>
    match e with
    | '"' => (parseStringBody fuel rest).map (fun p => ('"' :: p.1, p.2))
    | '\\' => (parseStringBody fuel rest).map (fun p => ('\\' :: p.1, p.2))
    | '/' => (parseStringBody fuel rest).map (fun p => ('/' :: p.1, p.2))
    | 'b' => (parseStringBody fuel rest).map (fun p => ('\x08' :: p.1, p.2))
    | 'f' => (parseStringBody fuel rest).map (fun p => ('\x0c' :: p.1, p.2))
    | 'n' => (parseStringBody fuel rest).map (fun p => ('\n' :: p.1, p.2))
    | 'r' => (parseStringBody fuel rest).map (fun p => ('\r' :: p.1, p.2))
    | 't' => (parseStringBody fuel rest).map (fun p => ('\t' :: p.1, p.2))
    | 'u' =>
      match hex4 rest with
      | none => none
      | some (h, rest1) =>
        if 0xD800 ≤ h ∧ h ≤ 0xDBFF then
          match rest1 with
          | '\\' :: 'u' :: rest2 =>
            match hex4 rest2 with
            | some (l, rest3) =>
              if 0xDC00 ≤ l ∧ l ≤ 0xDFFF then
                (parseStringBody fuel rest3).map
                  (fun p => (Char.ofNat (0x10000 + (h - 0xD800) * 0x400 + (l - 0xDC00)) :: p.1, p.2))
              else (parseStringBody fuel rest1).map (fun p => (Char.ofNat h :: p.1, p.2))
            | none => (parseStringBody fuel rest1).map (fun p => (Char.ofNat h :: p.1, p.2))
          | _ => (parseStringBody fuel rest1).map (fun p => (Char.ofNat h :: p.1, p.2))
        else (parseStringBody fuel rest1).map (fun p => (Char.ofNat h :: p.1, p.2))
    | _ => none
  | fuel + 1, c :: rest =>
    if c.toNat < 0x20 then none
    else (parseStringBody fuel rest).map (fun p => (c :: p.1, p.2))

/-- An integer numeral: optional minus sign, digits, no leading zero
before further digits (strict JSON).  A following `.`, `e` or `E` would be
a float, which this model does not represent, so it fails. -/
def parseIntNumeral (cs : List Char) : Option (Int × List Char) :=
  let (neg, cs1) :=
    match cs with
    | '-' :: rest => (true, rest)
    | _ => (false, cs)
  let digits := cs1.takeWhile Char.isDigit
  let rest := cs1.dropWhile Char.isDigit
  if digits = [] then none
  else if digits.length > 1 ∧ digits.head? = some '0' then none
  else
    match rest with
    | '.' :: _ => none
    | 'e' :: _ => none
    | 'E' :: _ => none
    | _ =>
      let n : Nat := digits.foldl (fun acc c => acc * 10 + (c.toNat - '0'.toNat)) 0
      some (if neg then -(n : Int) else (n : Int), rest)

mutual

/-- One JSON value, leading whitespace allowed. -/
def parseJValue : Nat → List Char → Option (JValue × List Char)
  | 0, _ => none
  | fuel + 1, cs =>
    match skipWs cs with
    | [] => none
    | c :: rest =>
      if c = 'n' then
        match rest with
        | 'u' :: 'l' :: 'l' :: rest' => some (.null, rest')
        | _ => none
      else if c = 't' then
        match rest with
        | 'r' :: 'u' :: 'e' :: rest' => some (.bool true, rest')
        | _ => none
      else if c = 'f' then
        match rest with
        | 'a' :: 'l' :: 's' :: 'e' :: rest' => some (.bool false, rest')
        | _ => none
      else if c = '"' then
        (parseStringBody fuel rest).map (fun p => (.str (String.mk p.1), p.2))
      else if c = '[' then
        match skipWs rest with
        | ']' :: rest' => some (.arr [], rest')
        | cs' => (parseElems fuel cs').map (fun p => (.arr p.1, p.2))
      else if c = '{' then
        match skipWs rest with
        | '}' :: rest' => some (.obj [], rest')
        | cs' => (parseMembers fuel cs').map (fun p => (.obj p.1, p.2))
      else if c = '-' ∨ c.isDigit then
        (parseIntNumeral (c :: rest)).map (fun p => (.int p.1, p.2))
      else none

/-- The elements of a non-empty array, up to and including `]`. -/
def parseElems : Nat → List Char → Option (List JValue × List Char)
  | 0, _ => none
  | fuel + 1, cs =>
    match parseJValue fuel cs with
    | none => none
    | some (v, rest) =>
      match skipWs rest with
      | ',' :: rest' => (parseElems fuel rest').map (fun p => (v :: p.1, p.2))
      | ']' :: rest' => some ([v], rest')
      | _ => none

/-- The members of a non-empty object, up to and including the closing
brace. -/
def parseMembers : Nat → List Char → Option (List (String × JValue) × List Char)
  | 0, _ => none
  | fuel + 1, cs =>
    match skipWs cs with
    | '"' :: rest =>
      match parseStringBody rest.length rest with
      | none => none
      | some (key, rest1) =>
        match skipWs rest1 with
        | ':' :: rest2 =>
          match parseJValue fuel rest2 with
          | none => none
          | some (v, rest3) =>
            match skipWs rest3 with
            | ',' :: rest4 =>
              (parseMembers fuel rest4).map (fun p => ((String.mk key, v) :: p.1, p.2))
            | '}' :: rest4 => some ([(String.mk key, v)], rest4)
            | _ => none
        | _ => none
    | _ => none

end

/-- `json.loads`: parse one JSON document with nothing but whitespace
after it. -/
def jsonLoads (s : String) : Option JValue :=
  match parseJValue (2 * s.length + 4) s.toList with
  | some (v, rest) => if skipWs rest = [] then some v else none
  | none => none

/-- One hexadecimal digit (lower case), for `\uXXXX` output escapes. -/
def hexDigit (n : Nat) : Char :=
  if n < 10 then Char.ofNat ('0'.toNat + n) else Char.ofNat ('a'.toNat + n - 10)

/-- Escape one character the way `json.dumps` does with its default
`ensure_ascii=True`: the two mandatory escapes, the short control escapes,
`\uXXXX` for other control or non-ASCII characters (characters outside
the basic multilingual plane, which would need surrogate pairs, are not
modelled). -/
def escChar (c : Char) : String :=
  if c = '"' then "\\\""
  else if c = '\\' then "\\\\"
  else if c = '\n' then "\\n"
  else if c = '\t' then "\\t"
  else if c = '\r' then "\\r"
  else if c = '\x08' then "\\b"
  else if c = '\x0c' then "\\f"
  else if c.toNat < 0x20 ∨ c.toNat > 0x7e then
    String.mk ['\\', 'u', hexDigit (c.toNat / 4096 % 16), hexDigit (c.toNat / 256 % 16),
               hexDigit (c.toNat / 16 % 16), hexDigit (c.toNat % 16)]
  else String.singleton c

/-- The body of a `json.dumps` string literal. -/
def escapeJsonString (s : String) : String :=
  s.data.foldl (fun acc c => acc ++ escChar c) ""

mutual

/-- `json.dumps` with its default separators `", "` and `": "` (what every
`json.dumps` call in the repository uses). -/
def jsonDumps : JValue → String
  | .null => "null"
  | .bool true => "true"
  | .bool false => "false"
  | .int n => toString n
  | .str s => "\"" ++ escapeJsonString s ++ "\""
  | .arr xs => "[" ++ String.intercalate ", " (jsonDumpsList xs) ++ "]"
  | .obj fs => "\x7b" ++ String.intercalate ", " (jsonDumpsFields fs) ++ "\x7d"

def jsonDumpsList : List JValue → List String
  | [] => []
  | x :: xs => jsonDumps x :: jsonDumpsList xs

def jsonDumpsFields : List (String × JValue) → List String
  | [] => []
  | (k, v) :: fs => ("\"" ++ escapeJsonString k ++ "\": " ++ jsonDumps v) :: jsonDumpsFields fs

end

/-! ## The Action Normalizer

Translation of `OpenRouterClient._validate_computer_action` and
`OpenRouterClient._ensure_json_content`
(`src/backend/llm_backend/openrouter_client.py`, lines 296-503). -/

/-- The normalized Action Record built by `_validate_computer_action`:
the Python dict with keys `method`, `element`, `args`, `step`,
`completed`, in that insertion order.  `step` is kept as a `JValue`
because the code copies a non-string truthy `step` field through
verbatim. -/
structure ActionRecord where
  method : String
  element : Option Int
  args : List JValue
  step : JValue
  completed : Bool
  deriving DecidableEq, Repr

/-- `VALID_METHODS` from `_validate_computer_action`. -/
def VALID_METHODS : List String :=
  ["click", "fill", "press", "hover", "scrollIntoViewIfNeeded",
   "selectOption", "check", "uncheck", "goto", "waitForTimeout",
   "type", "screenshot", "evaluate"]

/-- `method_mappings` from `_validate_computer_action`. -/
def method_mappings : List (String × String) :=
  [("type", "fill"),
   ("input", "fill"),
   ("enter", "fill"),
   ("write", "fill"),
   ("key", "press"),
   ("keypress", "press"),
   ("navigate", "goto"),
   ("scroll", "scrollIntoViewIfNeeded"),
   ("wait", "waitForTimeout"),
   ("left_click", "click"),
   ("right_click", "click"),
   ("move", "hover")]

/-- `page_level_methods` from `_validate_computer_action`. -/
def page_level_methods : List String :=
  ["goto", "waitForTimeout", "evaluate", "screenshot"]

/-- `method = action_json.get("method") or action_json.get("action", "click")`
followed by `method = method.lower() if method else "click"`.  A truthy
non-string value has no `.lower`, which raises `AttributeError`. -/
def resolveRawMethod (fs : List (String × JValue)) : Except PyError String :=
  if pyTruthy (pyOr (pyGetD fs "method" .null) (pyGetD fs "action" (.str "click"))) then
    match pyOr (pyGetD fs "method" .null) (pyGetD fs "action" (.str "click")) with
    | .str s => .ok (pyLower s)
    | _ => .error .attributeError
  else .ok "click"

/-- Apply `method_mappings` to a lower-cased method name, leaving
unmapped names unchanged. -/
def aliasApply (m : String) : String :=
  ((method_mappings.find? (fun p => p.1 = m)).map Prod.snd).getD m

/-- Full method resolution of `_validate_computer_action`: raw method,
alias table, then fall back to `"click"` when the result is not a member
of `VALID_METHODS`. -/
def resolveMethod (fs : List (String × JValue)) : Except PyError String :=
  match resolveRawMethod fs with
  | .error e => .error e
  | .ok m0 => .ok (if aliasApply m0 ∈ VALID_METHODS then aliasApply m0 else "click")

/-- Element resolution of `_validate_computer_action` (lines 407-427):
`dict.get` returns `None` both for an absent key and an explicit JSON
null, page-level methods keep `None`, element-level methods default to 0,
and a present value is coerced with `int(...)` falling back to 0 on
`ValueError`/`TypeError`. -/
def resolveElement (m : String) (fs : List (String × JValue)) : Option Int :=
  match pyGetD fs "element" .null with
  | .null => if m ∈ page_level_methods then none else some 0
  | v => some (pyIntD v 0)

/-- `action_json.get("arguments", {}).get(k)`: raises `AttributeError`
when the `arguments` field holds a non-dict (including an explicit null). -/
def argumentsGet (fs : List (String × JValue)) (k : String) : Except PyError JValue :=
  match pyGetD fs "arguments" (.obj []) with
  | .obj afs => .ok (pyGetD afs k .null)
  | _ => .error .attributeError

/-- `action_json.get("args", [None])[0] if isinstance(action_json.get("args"), list) else ...`:
when the `args` field is a list its first entry is used (an empty list
raises `IndexError`); otherwise the per-method fallback chain applies. -/
def argsFirst (fs : List (String × JValue)) : Option (Except PyError JValue) :=
  match pyGet fs "args" with
  | some (.arr xs) =>
    some (match xs with
          | [] => Except.error PyError.indexError
          | x :: _ => Except.ok x)
  | _ => none

/-- Args resolution of `_validate_computer_action` (lines 429-486),
branch by branch. -/
def resolveArgs (m : String) (fs : List (String × JValue)) : Except PyError (List JValue) :=
  if m = "fill" then
    match argsFirst fs with
    | some (.error e) => .error e
    | some (.ok t) => .ok [t]
    | none =>
      if pyTruthy (pyGetD fs "text" .null) then .ok [pyGetD fs "text" .null]
      else if pyTruthy (pyGetD fs "value" .null) then .ok [pyGetD fs "value" .null]
      else
        match argumentsGet fs "text" with
        | .error e => .error e
        | .ok a => if pyTruthy a then .ok [a] else .ok [.str ""]
  else if m = "press" then
    match argsFirst fs with
    | some (.error e) => .error e
    | some (.ok k) => .ok [k]
    | none =>
      if pyTruthy (pyGetD fs "key" .null) then .ok [pyGetD fs "key" .null]
      else
        match argumentsGet fs "key" with
        | .error e => .error e
        | .ok a => if pyTruthy a then .ok [a] else .ok [.str "Enter"]
  else if m = "goto" then
    match argsFirst fs with
    | some (.error e) => .error e
    | some (.ok u) => .ok [u]
    | none =>
      if pyTruthy (pyGetD fs "url" .null) then .ok [pyGetD fs "url" .null]
      else
        match argumentsGet fs "url" with
        | .error e => .error e
        | .ok a =>
          if pyTruthy a then .ok [a]
          else if pyTruthy (pyGetD fs "selector" .null) then .ok [pyGetD fs "selector" .null]
          else .ok [.str ""]
  else if m = "waitForTimeout" then
    match argsFirst fs with
    | some (.error e) => .error e
    | some (.ok d) => .ok [.int (pyIntD d 1000)]
    | none =>
      if pyTruthy (pyGetD fs "duration" .null) then .ok [.int (pyIntD (pyGetD fs "duration" .null) 1000)]
      else
        match argumentsGet fs "duration" with
        | .error e => .error e
        | .ok a =>
          if pyTruthy a then .ok [.int (pyIntD a 1000)]
          else .ok [.int (pyIntD (.int 1000) 1000)]
  else if m = "selectOption" then
    match argsFirst fs with
    | some (.error e) => .error e
    | some (.ok v) => .ok [v]
    | none =>
      if pyTruthy (pyGetD fs "value" .null) then .ok [pyGetD fs "value" .null]
      else
        match argumentsGet fs "value" with
        | .error e => .error e
        | .ok a => if pyTruthy a then .ok [a] else .ok [.str ""]
  else
    match pyGet fs "args" with
    | some (.arr xs) => .ok xs
    | _ => .ok []

/-- Step resolution of `_validate_computer_action` (lines 488-494):
first truthy among `step`, `description`, `reasoning`, `message`, else
the generated `"Perform {method} action"` string. -/
def resolveStep (m : String) (fs : List (String × JValue)) : JValue :=
  pyOr (pyGetD fs "step" .null)
    (pyOr (pyGetD fs "description" .null)
      (pyOr (pyGetD fs "reasoning" .null)
        (pyOr (pyGetD fs "message" .null)
          (.str ("Perform " ++ m ++ " action")))))

/-- Completed resolution of `_validate_computer_action` (lines 496-501):
`get("completed", False)`, the four-string membership test for strings,
then Python `bool(...)`. -/
def resolveCompleted (fs : List (String × JValue)) : Bool :=
  match pyGetD fs "completed" (.bool false) with
  | .str s => decide (pyLower s ∈ ["true", "yes", "1", "completed"])
  | v => pyTruthy v

/-- `_validate_computer_action` (lines 360-503).  Calling `.get` on a
parsed non-dict raises `AttributeError`; the per-field resolvers raise as
documented above, in the evaluation order of the Python code (method,
then element, then args — element resolution cannot raise). -/
def validate_computer_action : JValue → Except PyError ActionRecord
  | .obj fs =>
    match resolveMethod fs with
    | .error e => .error e
    | .ok m =>
      match resolveArgs m fs with
      | .error e => .error e
      | .ok args =>
        .ok { method := m
              element := resolveElement m fs
              args := args
              step := resolveStep m fs
              completed := resolveCompleted fs }
  | _ => .error .attributeError

/-- The field list of the JSON image of a normalized record, in the dict
insertion order of `_validate_computer_action`. -/
def recordFields (r : ActionRecord) : List (String × JValue) :=
  [("method", .str r.method),
   ("element", match r.element with | some n => .int n | none => .null),
   ("args", .arr r.args),
   ("step", r.step),
   ("completed", .bool r.completed)]

/-- The JSON image of a normalized record (what `json.dumps(validated)`
receives). -/
def recordToJson (r : ActionRecord) : JValue :=
  .obj (recordFields r)

/-- The default "wait" record returned for empty content (lines 304-311). -/
def defaultWaitJson : JValue :=
  .obj [("method", .str "waitForTimeout"),
        ("element", .null),
        ("args", .arr [.int 1000]),
        ("step", .str "No action specified - waiting"),
        ("completed", .bool false)]

/-- The plaintext wrap of lines 351-358: the raw (unstripped) content
becomes the `step` of a default click record. -/
def wrapPlaintext (content : String) : String :=
  jsonDumps (.obj [("method", .str "click"),
                   ("element", .int 0),
                   ("args", .arr []),
                   ("step", .str content),
                   ("completed", .bool false)])

/-- The greedy DOTALL regex `\x7b.*\x7d` of line 342: it matches the
substring from the first opening brace to the last closing brace, when
the first opening brace comes before the last closing brace. -/
def braceMatch (s : String) : Option String :=
  let cs := s.toList
  match cs.findIdx? (· = '{'), (cs.reverse.findIdx? (· = '}')).map (fun j => cs.length - 1 - j) with
  | some i, some j => if i < j then some (String.mk ((cs.drop i).take (j - i + 1))) else none
  | _, _ => none

/-- The `except (json.JSONDecodeError, ValueError)` branch of
`_ensure_json_content` (lines 332-358): brace extraction is attempted
only when the stripped content starts with a brace or bracket, any
failure inside it is swallowed by the bare `except: pass`, and the
fallback wraps the raw content as a click step. -/
def extractionFallback (content : String) : String :=
  let cs := pyStrip content
  if cs.data.head? = some '\x7b' ∨ cs.data.head? = some '[' then
    match braceMatch cs with
    | some sub =>
      match jsonLoads sub with
      | some p =>
        match validate_computer_action p with
        | .ok v => jsonDumps (recordToJson v)
        | .error _ => wrapPlaintext content
      | none => wrapPlaintext content
    | none => wrapPlaintext content
  else wrapPlaintext content

/-- `_ensure_json_content` (lines 296-358) on an arbitrary content value.
A falsy content returns the default wait record; for a truthy non-string
the guard `content.strip() == ""` raises `AttributeError` before the
(therefore unreachable) `isinstance` coercions; for a string, strict
parsing, validation, and the fallback branch run as in the source, with
the `except` clause catching exactly `json.JSONDecodeError`/`ValueError`
(so `AttributeError`/`IndexError` raised by validation propagate). -/
def ensure_json_content (content : JValue) : Except PyError String :=
  if ¬ pyTruthy content then .ok (jsonDumps defaultWaitJson)
  else
    match content with
    | .str s =>
      if pyStrip s = "" then .ok (jsonDumps defaultWaitJson)
      else
        match jsonLoads s with
        | some parsed =>
          match validate_computer_action parsed with
          | .ok v => .ok (jsonDumps (recordToJson v))
          | .error .valueError => .ok (extractionFallback s)
          | .error e => .error e
        | none => .ok (extractionFallback s)
    | _ => .error .attributeError

/-! ## The forwarding proxy

Two distinct chat-completion forwarders exist in the repository:

* `OpenRouterClient.chat_completion` in
  `src/backend/llm_backend/openrouter_client.py` (lines 28-117), built on
  `requests`, which catches every `requests.exceptions.RequestException`
  and degrades it into a synthetic well-formed response; and
* `OpenRouterClient.chat_completion` in
  `src/backend/llm_backend/server.py` (lines 58-83), built on `httpx`,
  which is what the FastAPI route `POST /v1/chat/completions` actually
  calls, and which converts every upstream failure into a *raised*
  `HTTPException`.

The outcome of the single upstream POST (the only effectful step) is
modelled by `UpstreamOutcome`; everything after it is translated
faithfully. -/

/-- The possible outcomes of the upstream `POST .../chat/completions`.
For a non-2xx response the carried data are the response status, its
body text, the body parsed as JSON when that succeeds (`e.response.json()`),
and `str(e)`; the timeout / connection / body-decode failures carry
`str(e)`. -/
inductive UpstreamOutcome where
  | success : JValue → UpstreamOutcome
  | statusError : Nat → String → Option JValue → String → UpstreamOutcome
  | timeoutError : String → UpstreamOutcome
  | connectError : String → UpstreamOutcome
  | decodeError : String → UpstreamOutcome
  deriving DecidableEq, Repr

/-- Every outcome of the upstream call other than a successful JSON
response. -/
def isTransportFailure : UpstreamOutcome → Bool
  | .success _ => false
  | _ => true

mutual

/-- An approximation of Python `repr` on JSON-derived values, used only
through `str(...)` on containers (quote escaping inside reprs is not
modelled; the repository never formats containers in practice). -/
def pyRepr : JValue → String
  | .null => "None"
  | .bool true => "True"
  | .bool false => "False"
  | .int n => toString n
  | .str s => String.singleton (Char.ofNat 39) ++ s ++ String.singleton (Char.ofNat 39)
  | .arr xs => "[" ++ String.intercalate ", " (pyReprList xs) ++ "]"
  | .obj fs => "\x7b" ++ String.intercalate ", " (pyReprFields fs) ++ "\x7d"

def pyReprList : List JValue → List String
  | [] => []
  | x :: xs => pyRepr x :: pyReprList xs

def pyReprFields : List (String × JValue) → List String
  | [] => []
  | (k, v) :: fs =>
    (String.singleton (Char.ofNat 39) ++ k ++ String.singleton (Char.ofNat 39) ++ ": " ++ pyRepr v)
      :: pyReprFields fs

end

/-- Python `str(...)` of a JSON-derived value (f-string interpolation). -/
def pyStr : JValue → String
  | .str s => s
  | v => pyRepr v

/-- The `error_message` computed by the `except RequestException` handler
of `chat_completion` (lines 81-89): start from `str(e)`; when the
exception carries a response, try `e.response.json()` and take
`error_data.get("error", {}).get("message", error_message)` — any failure
inside (no JSON body, or a non-dict where `.get` is called) falls to the
bare `except`, which uses `e.response.text or error_message`. -/
def clientErrorMessage : UpstreamOutcome → String
  | .success _ => ""
  | .statusError _ text jsonBody strE =>
    match jsonBody with
    | some (.obj efs) =>
      match pyGetD efs "error" (.obj []) with
      | .obj ifs =>
        match pyGet ifs "message" with
        | some v => pyStr v
        | none => strE
      | _ => if text ≠ "" then text else strE
    | some _ => if text ≠ "" then text else strE
    | none => if text ≠ "" then text else strE
  | .timeoutError strE => strE
  | .connectError strE => strE
  | .decodeError strE => strE

/-- The synthetic fallback response of `chat_completion` (lines 92-117):
a minimal OpenAI-shaped body whose single choice's content is the default
`waitForTimeout` record with `"Error: {error_message}"` as its step.
`now` stands for `int(time.time())`. -/
def fallbackResponse (now : Int) (model : String) (msg : String) : JValue :=
  .obj [("id", .str ("chatcmpl-error-" ++ toString now)),
        ("object", .str "chat.completion"),
        ("created", .int now),
        ("model", .str model),
        ("choices", .arr
          [.obj [("index", .int 0),
                 ("message", .obj
                   [("role", .str "assistant"),
                    ("content", .str (jsonDumps
                      (.obj [("method", .str "waitForTimeout"),
                             ("element", .null),
                             ("args", .arr [.int 1000]),
                             ("step", .str ("Error: " ++ msg)),
                             ("completed", .bool false)])))]),
                 ("finish_reason", .str "stop"),
                 ("logprobs", .null)]]),
        ("usage", .obj [("prompt_tokens", .int 0),
                        ("completion_tokens", .int 0),
                        ("total_tokens", .int 0)])]

/-- One iteration of the choice-normalization loop of
`_normalize_openai_response` (lines 248-275).  A non-dict choice or
message raises `AttributeError` at the first `.get`; a null content is
replaced by `""` before `_ensure_json_content` runs. -/
def processChoice (choice : JValue) : Except PyError JValue :=
  match choice with
  | .obj cfs =>
    match pyGetD cfs "message" (.obj []) with
    | .obj mfs =>
      let content0 := pyGetD mfs "content" (.str "")
      let content1 := if content0 = .null then .str "" else content0
      match ensure_json_content content1 with
      | .error e => .error e
      | .ok contentS =>
        .ok (.obj
          [("index", pyGetD cfs "index" (.int 0)),
           ("message", .obj
             ([("role", pyGetD mfs "role" (.str "assistant")),
               ("content", .str contentS)] ++
              (match pyGet mfs "tool_calls" with
               | some tc => [("tool_calls", tc)]
               | none => []))),
           ("finish_reason", pyGetD cfs "finish_reason" (.str "stop")),
           ("logprobs", pyGetD cfs "logprobs" .null)])
    | _ => .error .attributeError
  | _ => .error .attributeError

/-- The default single choice used when the upstream response carries no
choices (lines 276-292). -/
def defaultChoice : JValue :=
  .obj [("index", .int 0),
        ("message", .obj
          [("role", .str "assistant"),
           ("content", .str (jsonDumps
             (.obj [("method", .str "waitForTimeout"),
                    ("element", .null),
                    ("args", .arr [.int 1000]),
                    ("step", .str ("I apologize, but I couldn" ++
                      String.singleton (Char.ofNat 39) ++ "t generate a response.")),
                    ("completed", .bool false)])))]),
        ("finish_reason", .str "stop"),
        ("logprobs", .null)]

/-- `_normalize_openai_response` (lines 224-294).  `len(...)` on a
numeric/boolean/null `choices` raises `TypeError`; iterating a non-empty
string or dict hands non-dict items to the loop, whose first `.get`
raises `AttributeError`. -/
def normalizeOpenaiResponse (now : Int) (model : String) (rd : JValue) : Except PyError JValue :=
  match rd with
  | .obj fs =>
    let assemble : List JValue → JValue := fun choices =>
      .obj [("id", pyGetD fs "id" (.str ("chatcmpl-" ++ toString now))),
            ("object", .str "chat.completion"),
            ("created", pyGetD fs "created" (.int now)),
            ("model", pyGetD fs "model" (.str model)),
            ("choices", .arr choices),
            ("usage", pyGetD fs "usage"
              (.obj [("prompt_tokens", .int 0),
                     ("completion_tokens", .int 0),
                     ("total_tokens", .int 0)]))]
    match pyGet fs "choices" with
    | some (.arr (c :: cs)) =>
      match (c :: cs).mapM processChoice with
      | .error e => .error e
      | .ok processed => .ok (assemble processed)
    | some (.arr []) => .ok (assemble [defaultChoice])
    | some (.str s) => if s = "" then .ok (assemble [defaultChoice]) else .error .attributeError
    | some (.obj ofs) => if ofs.isEmpty then .ok (assemble [defaultChoice]) else .error .attributeError
    | some _ => .error .typeError
    | none => .ok (assemble [defaultChoice])
  | _ => .error .attributeError

/-- `OpenRouterClient.chat_completion` of `openrouter_client.py`
(lines 61-117) after the upstream POST resolves: a successful JSON body
is normalized (errors raised by normalization are *not* caught — the
`except` clause only catches `RequestException`); every transport
failure is converted into the synthetic fallback response. -/
def clientChatCompletion (now : Int) (model : String) : UpstreamOutcome → Except PyError JValue
  | .success body => normalizeOpenaiResponse now model body
  | o => .ok (fallbackResponse now model (clientErrorMessage o))

/-- FastAPI's `HTTPException`, as raised by `server.py`. -/
structure HTTPException where
  status_code : Nat
  detail : String
  deriving DecidableEq, Repr

/-- `OpenRouterClient.chat_completion` of `server.py` (lines 58-83): an
`httpx.HTTPStatusError` becomes an `HTTPException` carrying the upstream
status code; every other failure (timeout, connection error, body that is
not JSON) becomes an `HTTPException` with status 500.  FastAPI turns a
raised `HTTPException` into a non-200 response, so these branches are
hard failures for the caller of `POST /v1/chat/completions`. -/
def serverChatCompletion : UpstreamOutcome → Except HTTPException JValue
  | .success body => .ok body
  | .statusError status text _ _ =>
    .error ⟨status, "OpenRouter API error: " ++ text⟩
  | .timeoutError strE => .error ⟨500, "Error calling OpenRouter: " ++ strE⟩
  | .connectError strE => .error ⟨500, "Error calling OpenRouter: " ++ strE⟩
  | .decodeError strE => .error ⟨500, "Error calling OpenRouter: " ++ strE⟩

/-- `choices[0].message.content` of a response body, when it is a string
— the shape downstream Stagehand consumes. -/
def firstChoiceContent (resp : JValue) : Option String :=
  match resp with
  | .obj fs =>
    match pyGet fs "choices" with
    | some (.arr (.obj cfs :: _)) =>
      match pyGet cfs "message" with
      | some (.obj mfs) =>
        match pyGet mfs "content" with
        | some (.str s) => some s
        | _ => none
      | _ => none
    | _ => none
  | _ => none

/-- The methods whose names survive `.lower()` unchanged: exactly the
all-lower-case members of `VALID_METHODS` that the normalizer can output. -/
def idempotentMethods : List String :=
  ["click", "fill", "press", "hover", "check", "uncheck", "goto", "screenshot", "evaluate"]

/-- First truthy value among a list of top-level field names (skipping
falsy values, as Python `or` does). -/
def firstTruthyField (fs : List (String × JValue)) : List String → Option JValue
  | [] => none
  | k :: ks =>
    if pyTruthy (pyGetD fs k .null) then some (pyGetD fs k .null)
    else firstTruthyField fs ks

/-- The per-argument fallback chain as the amended C4 claim words it:
first truthy value among the method's expected field names, then the
nested `arguments` object's key, then further fallback field names, then
the default. -/
def specChain (fs : List (String × JValue)) (pre : List String) (argKey : String)
    (post : List String) (dflt : JValue) : Except PyError JValue :=
  match firstTruthyField fs pre with
  | some v => .ok v
  | none =>
    match argumentsGet fs argKey with
    | .error e => .error e
    | .ok a =>
      if pyTruthy a then .ok a
      else
        match firstTruthyField fs post with
        | some v => .ok v
        | none => .ok dflt

/-- The args table as the amended C4 claim describes it: each of the five
special methods takes the first entry of an input `args` list when that
field holds a list (an empty list is an `IndexError`); otherwise `fill`
pulls text from `text`/`value`, `press` a key from `key` (default
"Enter"), `goto` a url from `url` with a late `selector` fallback,
`waitForTimeout` a duration from `duration` (default 1000, coerced to
integer), `selectOption` a value from `value`; every chain consults the
nested `arguments` object between the expected fields and the default;
all other methods take an input `args` list verbatim or `[]`. -/
def argsSpec (m : String) (fs : List (String × JValue)) : Except PyError (List JValue) :=
  if m = "fill" then
    match argsFirst fs with
    | some (.error e) => .error e
    | some (.ok t) => .ok [t]
    | none => (specChain fs ["text", "value"] "text" [] (.str "")).map (fun t => [t])
  else if m = "press" then
    match argsFirst fs with
    | some (.error e) => .error e
    | some (.ok k) => .ok [k]
    | none => (specChain fs ["key"] "key" [] (.str "Enter")).map (fun k => [k])
  else if m = "goto" then
    match argsFirst fs with
    | some (.error e) => .error e
    | some (.ok u) => .ok [u]
    | none => (specChain fs ["url"] "url" ["selector"] (.str "")).map (fun u => [u])
  else if m = "waitForTimeout" then
    match argsFirst fs with
    | some (.error e) => .error e
    | some (.ok d) => .ok [.int (pyIntD d 1000)]
    | none => (specChain fs ["duration"] "duration" [] (.int 1000)).map
        (fun d => [JValue.int (pyIntD d 1000)])
  else if m = "selectOption" then
    match argsFirst fs with
    | some (.error e) => .error e
    | some (.ok v) => .ok [v]
    | none => (specChain fs ["value"] "value" [] (.str "")).map (fun v => [v])
  else
    match pyGet fs "args" with
    | some (.arr xs) => .ok xs
    | _ => .ok []

/-! ## Helper lemmas -/

theorem pyTruthy_pyOr (a b : JValue) : pyTruthy (pyOr a b) = (pyTruthy a || pyTruthy b) := by
  unfold pyOr
  by_cases h : pyTruthy a = true
  · simp [h]
  · simp at h
    simp [h]

theorem pyOr_of_truthy {a : JValue} (b : JValue) (h : pyTruthy a = true) : pyOr a b = a := by
  simp [pyOr, h]

theorem generated_step_ne_empty (m : String) : ("Perform " ++ m ++ " action") ≠ "" := by
  intro h
  have hd := congrArg String.data h
  simp [String.data_append] at hd

theorem resolveStep_truthy (m : String) (fs : List (String × JValue)) :
    pyTruthy (resolveStep m fs) = true := by
  unfold resolveStep
  simp only [pyTruthy_pyOr]
  have : pyTruthy (.str ("Perform " ++ m ++ " action")) = true := by
    simp [pyTruthy]
    exact generated_step_ne_empty m
  simp [this]

theorem validate_ok_inv {fs : List (String × JValue)} {r : ActionRecord}
    (h : validate_computer_action (.obj fs) = .ok r) :
    ∃ m args, resolveMethod fs = .ok m ∧ resolveArgs m fs = .ok args ∧
      r = ⟨m, resolveElement m fs, args, resolveStep m fs, resolveCompleted fs⟩ := by
  simp only [validate_computer_action] at h
  cases hm : resolveMethod fs with
  | error e => rw [hm] at h; simp at h
  | ok m =>
    rw [hm] at h
    dsimp only at h
    cases ha : resolveArgs m fs with
    | error e => rw [ha] at h; simp at h
    | ok args =>
      rw [ha] at h
      simp only [Except.ok.injEq] at h
      exact ⟨m, args, rfl, ha, h.symm⟩

theorem resolveMethod_mem {fs : List (String × JValue)} {m : String}
    (h : resolveMethod fs = .ok m) : m ∈ VALID_METHODS := by
  unfold resolveMethod at h
  cases hr : resolveRawMethod fs with
  | error e => rw [hr] at h; exact absurd h (by simp)
  | ok m0 =>
    rw [hr] at h
    simp only [Except.ok.injEq] at h
    by_cases hv : aliasApply m0 ∈ VALID_METHODS
    · rw [if_pos hv] at h; exact h ▸ hv
    · rw [if_neg hv] at h; rw [← h]; decide

theorem aliasApply_ne_type {m0 : String} : aliasApply m0 ≠ "type" := by
  unfold aliasApply
  cases hf : method_mappings.find? (fun p => p.1 = m0) with
  | some p =>
    have hmem : p ∈ method_mappings := List.mem_of_find?_eq_some hf
    have : p.2 ≠ "type" := by
      fin_cases hmem <;> decide
    simpa using this
  | none =>
    simp only [Option.map_none', Option.getD_none]
    intro h
    rw [h] at hf
    exact absurd hf (by decide)

theorem resolveMethod_ne_type {fs : List (String × JValue)} {m : String}
    (h : resolveMethod fs = .ok m) : m ≠ "type" := by
  unfold resolveMethod at h
  cases hr : resolveRawMethod fs with
  | error e => rw [hr] at h; exact absurd h (by simp)
  | ok m0 =>
    rw [hr] at h
    simp only [Except.ok.injEq] at h
    by_cases hv : aliasApply m0 ∈ VALID_METHODS
    · rw [if_pos hv] at h; rw [← h]; exact aliasApply_ne_type
    · rw [if_neg hv] at h; rw [← h]; decide

theorem resolveElement_none_iff (m : String) (fs : List (String × JValue)) :
    resolveElement m fs = none ↔
      (m ∈ page_level_methods ∧ pyGetD fs "element" .null = .null) := by
  unfold resolveElement
  cases he : pyGetD fs "element" .null with
  | null =>
    by_cases hp : m ∈ page_level_methods
    · simp [hp]
    · simp [hp]
  | bool b => simp
  | int n => simp
  | str s => simp
  | arr xs => simp
  | obj gs => simp

theorem resolveArgs_fill_shape {fs : List (String × JValue)} {args : List JValue}
    (h : resolveArgs "fill" fs = .ok args) : ∃ t, args = [t] := by
  unfold resolveArgs at h
  rw [if_pos rfl] at h
  repeat' split at h
  all_goals (try simp only [Except.ok.injEq] at h)
  all_goals (first | exact ⟨_, h.symm⟩ | simp at h)

theorem resolveArgs_press_shape {fs : List (String × JValue)} {args : List JValue}
    (h : resolveArgs "press" fs = .ok args) : ∃ t, args = [t] := by
  unfold resolveArgs at h
  rw [if_neg (by decide), if_pos rfl] at h
  repeat' split at h
  all_goals (try simp only [Except.ok.injEq] at h)
  all_goals (first | exact ⟨_, h.symm⟩ | simp at h)

theorem resolveArgs_goto_shape {fs : List (String × JValue)} {args : List JValue}
    (h : resolveArgs "goto" fs = .ok args) : ∃ t, args = [t] := by
  unfold resolveArgs at h
  rw [if_neg (by decide), if_neg (by decide), if_pos rfl] at h
  repeat' split at h
  all_goals (try simp only [Except.ok.injEq] at h)
  all_goals (first | exact ⟨_, h.symm⟩ | simp at h)

theorem validate_record {m : String} {E : Option Int} {args : List JValue}
    {st : JValue} {c : Bool}
    (hm : m ∈ idempotentMethods)
    (hstep : pyTruthy st = true)
    (helem : E = none → m ∈ page_level_methods)
    (hsingle : (m = "fill" ∨ m = "press" ∨ m = "goto") → ∃ t, args = [t]) :
    validate_computer_action (recordToJson ⟨m, E, args, st, c⟩) = .ok ⟨m, E, args, st, c⟩ := by
  have hfacts : ∀ x ∈ idempotentMethods, (x != "") = true ∧ pyLower x = x ∧
      method_mappings.find? (fun p => p.1 = x) = none ∧ x ∈ VALID_METHODS := by decide
  obtain ⟨hne, hlow, hfind, hvalid⟩ := hfacts m hm
  have hgetm : pyGetD (recordFields ⟨m, E, args, st, c⟩) "method" .null = .str m := rfl
  have hne' : pyTruthy (.str m) = true := hne
  have hraw : resolveRawMethod (recordFields ⟨m, E, args, st, c⟩) = .ok m := by
    unfold resolveRawMethod
    rw [hgetm, pyOr_of_truthy _ hne', if_pos hne']
    dsimp only
    rw [hlow]
  have hmeth : resolveMethod (recordFields ⟨m, E, args, st, c⟩) = .ok m := by
    unfold resolveMethod
    rw [hraw]
    dsimp only
    unfold aliasApply
    rw [hfind]
    simp only [Option.map_none', Option.getD_none, if_pos hvalid]
  have helem' : resolveElement m (recordFields ⟨m, E, args, st, c⟩) = E := by
    unfold resolveElement
    cases E with
    | some n => rfl
    | none =>
      rw [show pyGetD (recordFields ⟨m, none, args, st, c⟩) "element" .null = .null from rfl]
      exact if_pos (helem rfl)
  have hstep' : resolveStep m (recordFields ⟨m, E, args, st, c⟩) = st := by
    show pyOr st _ = st
    exact pyOr_of_truthy _ hstep
  have hcomp : resolveCompleted (recordFields ⟨m, E, args, st, c⟩) = c := rfl
  have hargs : resolveArgs m (recordFields ⟨m, E, args, st, c⟩) = .ok args := by
    have hsplitAll : ∀ x ∈ idempotentMethods, x = "fill" ∨ x = "press" ∨ x = "goto" ∨
        (x ≠ "fill" ∧ x ≠ "press" ∧ x ≠ "goto" ∧ x ≠ "waitForTimeout" ∧ x ≠ "selectOption") := by
      decide
    rcases hsplitAll m hm with rfl | rfl | rfl | ⟨h1, h2, h3, h4, h5⟩
    · obtain ⟨t, rfl⟩ := hsingle (Or.inl rfl)
      rfl
    · obtain ⟨t, rfl⟩ := hsingle (Or.inr (Or.inl rfl))
      rfl
    · obtain ⟨t, rfl⟩ := hsingle (Or.inr (Or.inr rfl))
      rfl
    · unfold resolveArgs
      rw [if_neg h1, if_neg h2, if_neg h3, if_neg h4, if_neg h5]
      rfl
  show validate_computer_action (.obj (recordFields ⟨m, E, args, st, c⟩)) = _
  simp only [validate_computer_action]
  rw [hmeth]
  dsimp only
  rw [hargs]
  dsimp only
  rw [helem', hstep', hcomp]

set_option maxRecDepth 100000

/-! ## The claims -/

/-- C1: the claim states that for every input text the Action Normalizer
never raises and always returns an Action Record with all five fields.
The code violates this: `json.loads("5")` succeeds with the non-dict `5`,
`_validate_computer_action` then calls `.get` on it, and the resulting
`AttributeError` is not caught by the `except (json.JSONDecodeError,
ValueError)` clause, so `_ensure_json_content("5")` raises instead of
returning a record.  This theorem evaluates the embedded normalizer at
that failing input. -/
theorem c1_normalizer_raises_on_nondict :
    ensure_json_content (.str "5") = .error .attributeError ∧
    validate_computer_action (.int 5) = .error .attributeError ∧
    validate_computer_action (.obj [("method", .str "fill"), ("args", .arr [])]) =
      .error .indexError :=
  ⟨rfl, rfl, rfl⟩

/-- C9: the normalizer maps `\x7b"action":"type","value":"hello"\x7d` to
exactly the fill record with args `["hello"]` and generated step, and
maps the empty-string input to the default wait record with args
`[1000]` and `completed = false`. -/
theorem c9_scenario_type_and_empty :
    ensure_json_content (.str "\x7b\"action\":\"type\",\"value\":\"hello\"\x7d") =
      .ok (jsonDumps (recordToJson
        ⟨"fill", some 0, [.str "hello"], .str "Perform fill action", false⟩)) ∧
    validate_computer_action (.obj [("action", .str "type"), ("value", .str "hello")]) =
      .ok ⟨"fill", some 0, [.str "hello"], .str "Perform fill action", false⟩ ∧
    ensure_json_content (.str "") =
      .ok (jsonDumps (.obj [("method", .str "waitForTimeout"),
                            ("element", .null),
                            ("args", .arr [.int 1000]),
                            ("step", .str "No action specified - waiting"),
                            ("completed", .bool false)])) :=
  ⟨rfl, rfl, rfl⟩

/-- C3: for every parsed JSON object whose raw method resolves to a
recognized or aliasable verb, any successful normalization has its
`method` in `VALID_METHODS` (this in fact holds without the hypothesis),
and whenever the aliased method is still not a member of `VALID_METHODS`
the output method is `"click"`. -/
theorem c3_method_in_valid_set :
    (∀ fs m r, resolveRawMethod fs = .ok m →
      (m ∈ VALID_METHODS ∨ (method_mappings.find? (fun p => p.1 = m)).isSome) →
      validate_computer_action (.obj fs) = .ok r → r.method ∈ VALID_METHODS) ∧
    (∀ fs m r, resolveRawMethod fs = .ok m →
      aliasApply m ∉ VALID_METHODS →
      validate_computer_action (.obj fs) = .ok r → r.method = "click") := by
  constructor
  · intro fs m r _ _ h
    obtain ⟨m', args, hm', _, rfl⟩ := validate_ok_inv h
    exact resolveMethod_mem hm'
  · intro fs m r hraw hnv h
    obtain ⟨m', args, hm', _, rfl⟩ := validate_ok_inv h
    unfold resolveMethod at hm'
    rw [hraw] at hm'
    dsimp only at hm'
    rw [if_neg hnv] at hm'
    simpa using hm'.symm

/-- Witness for C3: `"navigate"` is aliasable and normalizes to `"goto"`,
which is in the valid set; `"frobnicate"` stays unknown after aliasing
and normalizes to `"click"`. -/
theorem c3_method_in_valid_set_witness :
    (ActionRecord.mk "goto" none [JValue.str ""] (JValue.str "Perform goto action") false).method
      ∈ VALID_METHODS ∧
    (ActionRecord.mk "click" (some 0) [] (JValue.str "Perform click action") false).method
      = "click" := by
  constructor
  · exact c3_method_in_valid_set.1 [("method", JValue.str "navigate")] "navigate"
      ⟨"goto", none, [JValue.str ""], JValue.str "Perform goto action", false⟩
      rfl (Or.inr (by decide)) rfl
  · exact c3_method_in_valid_set.2 [("method", JValue.str "frobnicate")] "frobnicate"
      ⟨"click", some 0, [], JValue.str "Perform click action", false⟩
      rfl (by decide) rfl

/-- C10: `"type"` is a member of `VALID_METHODS`, yet no successful
normalization ever outputs it — the alias table runs before the
membership test, so a raw method `"type"` is rewritten to `"fill"`. -/
theorem c10_type_never_survives :
    ("type" ∈ VALID_METHODS) ∧
    (∀ v r, validate_computer_action v = .ok r → r.method ≠ "type") ∧
    (∀ fs m r, resolveRawMethod fs = .ok m → m = "type" →
      validate_computer_action (.obj fs) = .ok r → r.method = "fill") := by
  refine ⟨by decide, ?_, ?_⟩
  · intro v r h
    cases v with
    | obj fs =>
      obtain ⟨m', args, hm', _, rfl⟩ := validate_ok_inv h
      exact resolveMethod_ne_type hm'
    | null => simp [validate_computer_action] at h
    | bool b => simp [validate_computer_action] at h
    | int n => simp [validate_computer_action] at h
    | str s => simp [validate_computer_action] at h
    | arr xs => simp [validate_computer_action] at h
  · intro fs m r hraw hm h
    subst hm
    obtain ⟨m', args, hm', _, rfl⟩ := validate_ok_inv h
    unfold resolveMethod at hm'
    rw [hraw] at hm'
    dsimp only at hm'
    rw [show aliasApply "type" = "fill" from rfl] at hm'
    rw [if_pos (by decide)] at hm'
    simpa using hm'.symm

/-- Witness for C10: the input `\x7b"method":"type"\x7d` normalizes to
method `"fill"`. -/
theorem c10_type_never_survives_witness :
    (ActionRecord.mk "fill" (some 0) [JValue.str ""] (JValue.str "Perform fill action") false).method
      = "fill" ∧
    (ActionRecord.mk "fill" (some 0) [JValue.str ""] (JValue.str "Perform fill action") false).method
      ≠ "type" := by
  constructor
  · exact c10_type_never_survives.2.2 [("method", JValue.str "type")] "type"
      ⟨"fill", some 0, [JValue.str ""], JValue.str "Perform fill action", false⟩
      rfl rfl rfl
  · exact c10_type_never_survives.2.1 (.obj [("method", JValue.str "type")])
      ⟨"fill", some 0, [JValue.str ""], JValue.str "Perform fill action", false⟩
      rfl

/-- C6: for every parsed JSON object input that normalizes successfully,
`element` is null iff the resolved method is page-level and the input
supplied no element (`dict.get` cannot distinguish an absent key from an
explicit JSON null, so both count as unsupplied); a supplied non-null
element is coerced with `int(...)` falling back to 0; an unsupplied
element of a non-page-level method defaults to 0. -/
theorem c6_element_null_iff :
    ∀ fs r, validate_computer_action (.obj fs) = .ok r →
      ((r.element = none ↔
          (r.method ∈ page_level_methods ∧ pyGetD fs "element" .null = .null)) ∧
       (∀ v, pyGetD fs "element" .null = v → v ≠ .null → r.element = some (pyIntD v 0)) ∧
       (pyGetD fs "element" .null = .null → r.method ∉ page_level_methods →
          r.element = some 0)) := by
  intro fs r h
  obtain ⟨m, args, hm, ha, rfl⟩ := validate_ok_inv h
  refine ⟨resolveElement_none_iff m fs, ?_, ?_⟩
  · intro v hv hvn
    show resolveElement m fs = some (pyIntD v 0)
    unfold resolveElement
    rw [hv]
    cases v with
    | null => exact absurd rfl hvn
    | bool b => rfl
    | int n => rfl
    | str s => rfl
    | arr xs => rfl
    | obj gs => rfl
  · intro hnull hnp
    show resolveElement m fs = some 0
    unfold resolveElement
    rw [hnull, if_neg hnp]

/-- Witness for C6: `\x7b"method":"goto"\x7d` yields a null element (goto is
page-level, no element supplied). -/
theorem c6_element_null_iff_witness :
    (ActionRecord.mk "goto" none [JValue.str ""] (JValue.str "Perform goto action") false).element
        = none ↔
      ((ActionRecord.mk "goto" none [JValue.str ""] (JValue.str "Perform goto action") false).method
          ∈ page_level_methods ∧
        pyGetD [("method", JValue.str "goto")] "element" JValue.null = JValue.null) :=
  (c6_element_null_iff [("method", JValue.str "goto")]
    ⟨"goto", none, [JValue.str ""], JValue.str "Perform goto action", false⟩ rfl).1

/-- C8 counterexample: the claim says `completed` is true *exactly* for
the four case-insensitive strings and that every other value maps to
false — but the input value boolean `true` (not one of those strings)
already yields `completed = true`, because the code applies Python
`bool(...)` to non-strings. -/
theorem c8_completed_bool_counterexample :
    validate_computer_action (.obj [("completed", .bool true)]) =
      .ok ⟨"click", some 0, [], .str "Perform click action", true⟩ ∧
    validate_computer_action (.obj [("completed", .int 2)]) =
      .ok ⟨"click", some 0, [], .str "Perform click action", true⟩ :=
  ⟨rfl, rfl⟩

/-- C8 as amended: `completed` is true iff the input's `completed` value
is a string whose lower-cased form is one of "true"/"yes"/"1"/"completed",
or a truthy non-string value; absence (defaulted to `False`) and falsy
values give false. -/
theorem c8_completed_amended :
    ∀ fs r, validate_computer_action (.obj fs) = .ok r →
      (r.completed = true ↔
        ((∃ s, pyGetD fs "completed" (.bool false) = .str s ∧
            pyLower s ∈ ["true", "yes", "1", "completed"]) ∨
         ((∀ s, pyGetD fs "completed" (.bool false) ≠ .str s) ∧
            pyTruthy (pyGetD fs "completed" (.bool false)) = true))) := by
  intro fs r h
  obtain ⟨m, args, hm, ha, rfl⟩ := validate_ok_inv h
  show resolveCompleted fs = true ↔ _
  unfold resolveCompleted
  cases hc : pyGetD fs "completed" (.bool false) with
  | str s => simp [pyTruthy]
  | null => simp [pyTruthy]
  | bool b => simp [pyTruthy]
  | int n => simp [pyTruthy]
  | arr xs => simp [pyTruthy]
  | obj gs => simp [pyTruthy]

/-- Witness for C8: `\x7b"completed":"YES"\x7d` yields `completed = true`
through the string branch. -/
theorem c8_completed_amended_witness :
    (ActionRecord.mk "click" (some 0) [] (JValue.str "Perform click action") true).completed
        = true ↔
      ((∃ s, pyGetD [("completed", JValue.str "YES")] "completed" (JValue.bool false) = .str s ∧
          pyLower s ∈ ["true", "yes", "1", "completed"]) ∨
       ((∀ s, pyGetD [("completed", JValue.str "YES")] "completed" (JValue.bool false) ≠ .str s) ∧
          pyTruthy (pyGetD [("completed", JValue.str "YES")] "completed" (JValue.bool false)) = true)) :=
  c8_completed_amended [("completed", JValue.str "YES")]
    ⟨"click", some 0, [], JValue.str "Perform click action", true⟩ rfl

/-- C7 counterexample: `\x7b"method":"wait"\x7d` normalizes to a
`waitForTimeout` record; feeding that record back through the normalizer
(as its JSON image) yields a `click` record, because
`"waitForTimeout".lower()` is not in `VALID_METHODS` and not in the alias
table.  Normalization is therefore not idempotent. -/
theorem c7_not_idempotent_counterexample :
    validate_computer_action (.obj [("method", .str "wait")]) =
      .ok ⟨"waitForTimeout", none, [.int 1000], .str "Perform waitForTimeout action", false⟩ ∧
    validate_computer_action (recordToJson
        ⟨"waitForTimeout", none, [.int 1000], .str "Perform waitForTimeout action", false⟩) =
      .ok ⟨"click", some 0, [.int 1000], .str "Perform waitForTimeout action", false⟩ ∧
    ("click" : String) ≠ "waitForTimeout" ∧
    ensure_json_content (.str "\x7b\"method\": \"wait\"\x7d") =
      .ok (jsonDumps (recordToJson
        ⟨"waitForTimeout", none, [.int 1000], .str "Perform waitForTimeout action", false⟩)) ∧
    ensure_json_content (.str (jsonDumps (recordToJson
        ⟨"waitForTimeout", none, [.int 1000], .str "Perform waitForTimeout action", false⟩))) =
      .ok (jsonDumps (recordToJson
        ⟨"click", some 0, [.int 1000], .str "Perform waitForTimeout action", false⟩)) :=
  ⟨rfl, rfl, by decide, rfl, rfl⟩

/-- C7 as amended: normalization is idempotent exactly on the records
whose method is one of the all-lower-case names (click, fill, press,
hover, check, uncheck, goto, screenshot, evaluate): for those, repeating
`_validate_computer_action` on the record's JSON image returns the
identical record, and `_ensure_json_content` on any serialization of the
record returns the record's canonical serialization.  (Records carrying
scrollIntoViewIfNeeded, selectOption or waitForTimeout are instead
remapped to click, per the counterexample.) -/
theorem c7_idempotent_on_lowercase_methods :
    ∀ fs r, validate_computer_action (.obj fs) = .ok r → r.method ∈ idempotentMethods →
      (validate_computer_action (recordToJson r) = .ok r ∧
       ∀ s, jsonLoads s = some (recordToJson r) → s ≠ "" → pyStrip s ≠ "" →
         ensure_json_content (.str s) = .ok (jsonDumps (recordToJson r))) := by
  intro fs r h hm
  obtain ⟨m, args, hmeth, hargs, rfl⟩ := validate_ok_inv h
  simp only at hm
  have key : validate_computer_action
      (recordToJson ⟨m, resolveElement m fs, args, resolveStep m fs, resolveCompleted fs⟩) =
      .ok ⟨m, resolveElement m fs, args, resolveStep m fs, resolveCompleted fs⟩ := by
    apply validate_record hm (resolveStep_truthy m fs)
    · intro hnone
      exact ((resolveElement_none_iff m fs).mp hnone).1
    · rintro (rfl | rfl | rfl)
      · exact resolveArgs_fill_shape hargs
      · exact resolveArgs_press_shape hargs
      · exact resolveArgs_goto_shape hargs
  refine ⟨key, ?_⟩
  intro s hparse hne hstrip
  have ht : pyTruthy (.str s) = true := by simp [pyTruthy, hne]
  simp only [ensure_json_content, ht, not_true_eq_false, if_neg, hparse, key]
  rw [if_neg (by simp), if_neg hstrip]

/-- Witness for C7: a click record round-trips unchanged, at the record
level and at the serialized-text level. -/
theorem c7_idempotent_witness :
    validate_computer_action (recordToJson
        ⟨"click", some 0, [], .str "Perform click action", false⟩) =
      .ok ⟨"click", some 0, [], .str "Perform click action", false⟩ ∧
    ensure_json_content (.str (jsonDumps (recordToJson
        ⟨"click", some 0, [], .str "Perform click action", false⟩))) =
      .ok (jsonDumps (recordToJson
        ⟨"click", some 0, [], .str "Perform click action", false⟩)) := by
  have h := c7_idempotent_on_lowercase_methods [("method", JValue.str "click")]
    ⟨"click", some 0, [], .str "Perform click action", false⟩ rfl (by decide)
  exact ⟨h.1, h.2 _ (by decide) (by decide) (by decide)⟩

/-- C5 counterexample: the claim says that whenever strict parsing fails
the normalizer parses the first brace-delimited substring.  For the input
`a\x7b"method": "hover"\x7d` strict parsing fails and the brace-delimited
substring parses to a hover action — yet the code returns the default
click wrap (with the whole raw text as `step`), because extraction only
runs when the *stripped text starts with* a brace or bracket. -/
theorem c5_extraction_needs_leading_brace :
    jsonLoads "\x7b\"method\": \"hover\"\x7d" = some (.obj [("method", .str "hover")]) ∧
    validate_computer_action (.obj [("method", .str "hover")]) =
      .ok ⟨"hover", some 0, [], .str "Perform hover action", false⟩ ∧
    jsonLoads "a\x7b\"method\": \"hover\"\x7d" = none ∧
    ensure_json_content (.str "a\x7b\"method\": \"hover\"\x7d") =
      .ok (wrapPlaintext "a\x7b\"method\": \"hover\"\x7d") ∧
    wrapPlaintext "a\x7b\"method\": \"hover\"\x7d" ≠
      jsonDumps (recordToJson ⟨"hover", some 0, [], .str "Perform hover action", false⟩) :=
  ⟨rfl, rfl, rfl, rfl, by decide⟩

/-- C5 as amended: when strict parsing fails, the brace-extraction step
runs only when the stripped text starts with a brace or bracket; when it
does not apply (or fails), the raw text is wrapped verbatim as the `step`
of a default click record (element 0, empty args); the stripped text is
searched for the *greedy* first-brace-to-last-brace substring; the
plain-prose scenario holds as stated. -/
theorem c5_plaintext_wrap_amended :
    (∀ s, jsonLoads s = none → s ≠ "" → pyStrip s ≠ "" →
      ¬((pyStrip s).data.head? = some '\x7b' ∨ (pyStrip s).data.head? = some '[') →
      ensure_json_content (.str s) = .ok (wrapPlaintext s)) ∧
    (∀ s sub p v, jsonLoads s = none → s ≠ "" → pyStrip s ≠ "" →
      ((pyStrip s).data.head? = some '\x7b' ∨ (pyStrip s).data.head? = some '[') →
      braceMatch (pyStrip s) = some sub → jsonLoads sub = some p →
      validate_computer_action p = .ok v →
      ensure_json_content (.str s) = .ok (jsonDumps (recordToJson v))) ∧
    ensure_json_content (.str "Click the blue button") =
      .ok (jsonDumps (.obj [("method", .str "click"),
                            ("element", .int 0),
                            ("args", .arr []),
                            ("step", .str "Click the blue button"),
                            ("completed", .bool false)])) := by
  refine ⟨?_, ?_, rfl⟩
  · intro s hparse hne hstrip hhead
    have ht : pyTruthy (.str s) = true := by simp [pyTruthy, hne]
    simp only [ensure_json_content, ht, not_true_eq_false, hparse]
    rw [if_neg (by simp), if_neg hstrip]
    unfold extractionFallback
    have h1 : ¬(pyStrip s).data.head? = some '\x7b' := fun h => hhead (Or.inl h)
    have h2 : ¬(pyStrip s).data.head? = some '[' := fun h => hhead (Or.inr h)
    rw [if_neg (by simp [h1, h2])]
  · intro s sub p v hparse hne hstrip hhead hbrace hsub hv
    have ht : pyTruthy (.str s) = true := by simp [pyTruthy, hne]
    simp only [ensure_json_content, ht, not_true_eq_false, hparse]
    rw [if_neg (by simp), if_neg hstrip]
    unfold extractionFallback
    rw [if_pos hhead, hbrace]
    dsimp only
    rw [hsub]
    dsimp only
    rw [hv]

/-- Witness for C5: the plain-prose scenario discharges the first branch,
and the input `\x7b"method": "hover"\x7d trailing` (which starts with a
brace but has trailing junk, so strict parsing fails) discharges the
extraction branch. -/
theorem c5_plaintext_wrap_witness :
    ensure_json_content (.str "Click the blue button") =
      .ok (wrapPlaintext "Click the blue button") ∧
    ensure_json_content (.str "\x7b\"method\": \"hover\"\x7d trailing") =
      .ok (jsonDumps (recordToJson ⟨"hover", some 0, [], .str "Perform hover action", false⟩)) := by
  constructor
  · exact c5_plaintext_wrap_amended.1 "Click the blue button"
      (by decide) (by decide) (by decide) (by decide)
  · exact c5_plaintext_wrap_amended.2.1 "\x7b\"method\": \"hover\"\x7d trailing"
      "\x7b\"method\": \"hover\"\x7d" (.obj [("method", .str "hover")])
      ⟨"hover", some 0, [], .str "Perform hover action", false⟩
      (by decide) (by decide) (by decide) (by decide) (by decide) (by decide) (by decide)

/-- C4 counterexample: the claim orders the lookup "expected field name,
then `arguments`, then default" — but an input `args` list takes priority
over the expected field: with both `args: ["a"]` and `text: "b"` present,
fill resolves to `["a"]`, not `["b"]`. -/
theorem c4_args_list_beats_field :
    validate_computer_action
        (.obj [("method", .str "fill"), ("args", .arr [.str "a"]), ("text", .str "b")]) =
      .ok ⟨"fill", some 0, [.str "a"], .str "Perform fill action", false⟩ ∧
    [JValue.str "a"] ≠ [JValue.str "b"] :=
  ⟨rfl, by decide⟩

/-- C4 as amended: the args the normalizer builds agree, method by
method, with the claim's fallback-chain description once the input
`args`-list is given first priority (and `goto` is given its late
`selector` fallback): `resolveArgs`, translated from the code, equals
`argsSpec`, written from the amended claim, and every successful
normalization's `args` field is what `argsSpec` prescribes for the
resolved method. -/
theorem c4_args_resolution_amended :
    (∀ m fs, resolveArgs m fs = argsSpec m fs) ∧
    (∀ fs m r, validate_computer_action (.obj fs) = .ok r → resolveMethod fs = .ok m →
      argsSpec m fs = .ok r.args) := by
  have main : ∀ m fs, resolveArgs m fs = argsSpec m fs := by
    intro m fs
    by_cases hf : m = "fill"
    · subst hf
      unfold resolveArgs argsSpec
      rw [if_pos rfl, if_pos rfl]
      cases argsFirst fs with
      | some r => cases r <;> rfl
      | none =>
        dsimp only
        by_cases h1 : pyTruthy (pyGetD fs "text" JValue.null) = true
        · simp [h1, specChain, firstTruthyField, Except.map]
        · by_cases h2 : pyTruthy (pyGetD fs "value" JValue.null) = true
          · simp [h1, h2, specChain, firstTruthyField, Except.map]
          · cases hag : argumentsGet fs "text" with
            | error e => simp [h1, h2, hag, specChain, firstTruthyField, Except.map]
            | ok a =>
              by_cases h3 : pyTruthy a = true
              · simp [h1, h2, hag, h3, specChain, firstTruthyField, Except.map]
              · simp [h1, h2, hag, h3, specChain, firstTruthyField, Except.map]
    · by_cases hp : m = "press"
      · subst hp
        unfold resolveArgs argsSpec
        rw [if_neg (show ¬("press" : String) = "fill" by decide),
            if_neg (show ¬("press" : String) = "fill" by decide),
            if_pos (show ("press" : String) = "press" from rfl),
            if_pos (show ("press" : String) = "press" from rfl)]
        cases argsFirst fs with
        | some r => cases r <;> rfl
        | none =>
          dsimp only
          by_cases h1 : pyTruthy (pyGetD fs "key" JValue.null) = true
          · simp [h1, specChain, firstTruthyField, Except.map]
          · cases hag : argumentsGet fs "key" with
            | error e => simp [h1, hag, specChain, firstTruthyField, Except.map]
            | ok a =>
              by_cases h3 : pyTruthy a = true
              · simp [h1, hag, h3, specChain, firstTruthyField, Except.map]
              · simp [h1, hag, h3, specChain, firstTruthyField, Except.map]
      · by_cases hg : m = "goto"
        · subst hg
          unfold resolveArgs argsSpec
          rw [if_neg (show ¬("goto" : String) = "fill" by decide),
              if_neg (show ¬("goto" : String) = "fill" by decide),
              if_neg (show ¬("goto" : String) = "press" by decide),
              if_neg (show ¬("goto" : String) = "press" by decide),
              if_pos (show ("goto" : String) = "goto" from rfl),
              if_pos (show ("goto" : String) = "goto" from rfl)]
          cases argsFirst fs with
          | some r => cases r <;> rfl
          | none =>
            dsimp only
            by_cases h1 : pyTruthy (pyGetD fs "url" JValue.null) = true
            · simp [h1, specChain, firstTruthyField, Except.map]
            · cases hag : argumentsGet fs "url" with
              | error e => simp [h1, hag, specChain, firstTruthyField, Except.map]
              | ok a =>
                by_cases h3 : pyTruthy a = true
                · simp [h1, hag, h3, specChain, firstTruthyField, Except.map]
                · by_cases h4 : pyTruthy (pyGetD fs "selector" JValue.null) = true
                  · simp [h1, hag, h3, h4, specChain, firstTruthyField, Except.map]
                  · simp [h1, hag, h3, h4, specChain, firstTruthyField, Except.map]
        · by_cases hw : m = "waitForTimeout"
          · subst hw
            unfold resolveArgs argsSpec
            rw [if_neg (show ¬("waitForTimeout" : String) = "fill" by decide),
                if_neg (show ¬("waitForTimeout" : String) = "fill" by decide),
                if_neg (show ¬("waitForTimeout" : String) = "press" by decide),
                if_neg (show ¬("waitForTimeout" : String) = "press" by decide),
                if_neg (show ¬("waitForTimeout" : String) = "goto" by decide),
                if_neg (show ¬("waitForTimeout" : String) = "goto" by decide),
                if_pos (show ("waitForTimeout" : String) = "waitForTimeout" from rfl),
                if_pos (show ("waitForTimeout" : String) = "waitForTimeout" from rfl)]
            cases argsFirst fs with
            | some r => cases r <;> rfl
            | none =>
              dsimp only
              by_cases h1 : pyTruthy (pyGetD fs "duration" JValue.null) = true
              · simp [h1, specChain, firstTruthyField, Except.map]
              · cases hag : argumentsGet fs "duration" with
                | error e => simp [h1, hag, specChain, firstTruthyField, Except.map]
                | ok a =>
                  by_cases h3 : pyTruthy a = true
                  · simp [h1, hag, h3, specChain, firstTruthyField, Except.map]
                  · simp [h1, hag, h3, specChain, firstTruthyField, Except.map]
          · by_cases hs : m = "selectOption"
            · subst hs
              unfold resolveArgs argsSpec
              rw [if_neg (show ¬("selectOption" : String) = "fill" by decide),
                  if_neg (show ¬("selectOption" : String) = "fill" by decide),
                  if_neg (show ¬("selectOption" : String) = "press" by decide),
                  if_neg (show ¬("selectOption" : String) = "press" by decide),
                  if_neg (show ¬("selectOption" : String) = "goto" by decide),
                  if_neg (show ¬("selectOption" : String) = "goto" by decide),
                  if_neg (show ¬("selectOption" : String) = "waitForTimeout" by decide),
                  if_neg (show ¬("selectOption" : String) = "waitForTimeout" by decide),
                  if_pos (show ("selectOption" : String) = "selectOption" from rfl),
                  if_pos (show ("selectOption" : String) = "selectOption" from rfl)]
              cases argsFirst fs with
              | some r => cases r <;> rfl
              | none =>
                dsimp only
                by_cases h1 : pyTruthy (pyGetD fs "value" JValue.null) = true
                · simp [h1, specChain, firstTruthyField, Except.map]
                · cases hag : argumentsGet fs "value" with
                  | error e => simp [h1, hag, specChain, firstTruthyField, Except.map]
                  | ok a =>
                    by_cases h3 : pyTruthy a = true
                    · simp [h1, hag, h3, specChain, firstTruthyField, Except.map]
                    · simp [h1, hag, h3, specChain, firstTruthyField, Except.map]
            · unfold resolveArgs argsSpec
              simp only [hf, hp, hg, hw, hs, if_false]
  refine ⟨main, ?_⟩
  intro fs m r h hm
  obtain ⟨m', args, hm', ha', rfl⟩ := validate_ok_inv h
  rw [hm'] at hm
  simp only [Except.ok.injEq] at hm
  subst hm
  rw [← main]
  exact ha'

/-- Witness for C4: the scenario input `\x7b"action":"type","value":"hello"\x7d`
has its args prescribed by the spec chain as `["hello"]`. -/
theorem c4_args_resolution_witness :
    argsSpec "fill" [("action", JValue.str "type"), ("value", JValue.str "hello")] =
      .ok [JValue.str "hello"] ∧
    resolveArgs "goto" [("method", JValue.str "goto"), ("selector", JValue.str "x")] =
      argsSpec "goto" [("method", JValue.str "goto"), ("selector", JValue.str "x")] := by
  constructor
  · exact c4_args_resolution_amended.2
      [("action", JValue.str "type"), ("value", JValue.str "hello")] "fill"
      ⟨"fill", some 0, [JValue.str "hello"], JValue.str "Perform fill action", false⟩
      rfl rfl
  · exact c4_args_resolution_amended.1 "goto"
      [("method", JValue.str "goto"), ("selector", JValue.str "x")]

/-- C2 counterexample: the server actually mounted behind
`POST /v1/chat/completions` (`server.py`) does *not* return HTTP 200 on a
transport failure — a timeout is re-raised as an `HTTPException` with
status 500, which FastAPI surfaces to the caller as a hard failure. -/
theorem c2_server_propagates_transport_errors :
    serverChatCompletion (.timeoutError "The read operation timed out") =
      .error ⟨500, "Error calling OpenRouter: The read operation timed out"⟩ ∧
    serverChatCompletion (.statusError 429 "rate limited" none "429 Client Error") =
      .error ⟨429, "OpenRouter API error: rate limited"⟩ :=
  ⟨rfl, rfl⟩

/-- C2 as amended: on any upstream transport failure the `requests`-based
client (`openrouter_client.py`) does return a well-formed chat-completion
response whose single choice's content is the default `waitForTimeout`
record carrying `"Error: {message}"` in its `step`; the FastAPI server
variant (`server.py`), however, raises an `HTTPException` instead of
returning such a response. -/
theorem c2_client_degrades_server_raises :
    ∀ now model o, isTransportFailure o = true →
      (clientChatCompletion now model o =
          .ok (fallbackResponse now model (clientErrorMessage o)) ∧
       firstChoiceContent (fallbackResponse now model (clientErrorMessage o)) =
          some (jsonDumps (.obj [("method", .str "waitForTimeout"),
                                 ("element", .null),
                                 ("args", .arr [.int 1000]),
                                 ("step", .str ("Error: " ++ clientErrorMessage o)),
                                 ("completed", .bool false)])) ∧
       ∃ e : HTTPException, serverChatCompletion o = .error e) := by
  intro now model o hfail
  cases o with
  | success body => simp [isTransportFailure] at hfail
  | statusError status text jsonBody strE => exact ⟨rfl, rfl, ⟨_, rfl⟩⟩
  | timeoutError strE => exact ⟨rfl, rfl, ⟨_, rfl⟩⟩
  | connectError strE => exact ⟨rfl, rfl, ⟨_, rfl⟩⟩
  | decodeError strE => exact ⟨rfl, rfl, ⟨_, rfl⟩⟩

/-- Witness for C2: a concrete timeout. -/
theorem c2_client_degrades_server_raises_witness :
    clientChatCompletion 0 "m" (.timeoutError "boom") =
      .ok (fallbackResponse 0 "m" "boom") ∧
    ∃ e : HTTPException, serverChatCompletion (.timeoutError "boom") = .error e := by
  have h := c2_client_degrades_server_raises 0 "m" (.timeoutError "boom") rfl
  exact ⟨h.1, h.2.2⟩
